import Mathlib

/-!
Verification development for the time-warden core: the schedule compliance
engine (src-tauri/src/scheduler/engine.rs), the sessionizer state machine
(src-tauri/src/sessionizer/state.rs) and the schedule persistence encoding
(src-tauri/src/storage/schedules.rs).

Modelling conventions:
* Rust String / &str values are Lean String (a structure wrapping List Char);
  the storage encoding works on List Char directly, matching byte-level
  split/join on strings.
* chrono NaiveTime is modelled as a Nat number of seconds since midnight
  (always < 86400); the chrono Ord instance coincides with Nat order.
* std::time::Instant (the monotonic clock) is modelled as a Nat number of
  seconds; Instant.elapsed().as_secs() at monotonic time now is now - t,
  and the monotonic clock never runs backwards, so recorded instants are
  never larger than the current time.
* chrono DateTime of Utc (the wall clock used by the sessionizer) is
  modelled as an Int number of seconds since the epoch; (now - start)
  .num_seconds() is Int subtraction. The wall clock may step backwards.
* The engine keeps a HashMap from schedule id to ScheduleState; all claims
  concern a single schedule, so evaluate is modelled over the Option
  ScheduleState entry of the schedule being evaluated (absent or present).
-/

namespace TimeWarden

/-- Weekday, as in chrono::Weekday. -/
inductive Weekday where
  | Mon | Tue | Wed | Thu | Fri | Sat | Sun
deriving DecidableEq

/-- chrono Weekday::num_days_from_monday: the stable 0-6 Mon-Sun numbering. -/
def Weekday.num_days_from_monday : Weekday → Nat
  | .Mon => 0
  | .Tue => 1
  | .Wed => 2
  | .Thu => 3
  | .Fri => 4
  | .Sat => 5
  | .Sun => 6

/-- models/mod.rs Schedule. start_time and end_time are seconds-of-day
(chrono NaiveTime); u32 fields become Nat. -/
structure Schedule where
  id : Option Int
  name : String
  start_time : Nat
  end_time : Nat
  days : List Weekday
  expected_apps : List String
  check_interval_secs : Nat
  grace_period_secs : Nat
  enabled : Bool
deriving DecidableEq

/-- scheduler/engine.rs ScheduleState: per-schedule runtime state. Recorded
instants are monotonic-clock seconds. -/
structure ScheduleState where
  last_check : Option Nat
  last_notification : Option Nat
  grace_started : Option Nat
  consecutive_non_compliant : Nat
deriving DecidableEq

/-- Default::default() for ScheduleState. -/
def ScheduleState.default : ScheduleState :=
  { last_check := none, last_notification := none, grace_started := none,
    consecutive_non_compliant := 0 }

/-- The local wall-clock facts read by is_within_schedule: the current
weekday and the current time of day in seconds. -/
structure LocalNow where
  weekday : Weekday
  time : Nat
deriving DecidableEq

/-- Rust str::to_lowercase, modelled as per-character lowercasing of the
character list (agrees with Rust on ASCII input). -/
def toLowerS (s : String) : List Char :=
  s.data.map Char.toLower

/-- Rust str::contains(&str): substring occurrence test on character
lists. -/
def containsSub (needle : List Char) : List Char → Bool
  | [] => needle.isEmpty
  | c :: rest => needle.isPrefixOf (c :: rest) || containsSub needle rest

/-- SchedulerEngine::is_within_schedule, with the wall-clock reading passed
explicitly. -/
def is_within_schedule (schedule : Schedule) (now : LocalNow) : Bool :=
  if !(schedule.days.contains now.weekday) then
    false
  else if schedule.start_time ≤ schedule.end_time then
    decide (schedule.start_time ≤ now.time) && decide (now.time ≤ schedule.end_time)
  else
    decide (schedule.start_time ≤ now.time) || decide (now.time ≤ schedule.end_time)

/-- SchedulerEngine::is_compliant. -/
def is_compliant (schedule : Schedule) (current_app : String) : Bool :=
  if schedule.expected_apps.isEmpty then
    true
  else
    schedule.expected_apps.any fun app => containsSub (toLowerS app) (toLowerS current_app)

/-- SchedulerEngine::should_check at monotonic time now, over the state
entry of the schedule (none when the map has no entry). -/
def should_check (st : Option ScheduleState) (check_interval_secs : Nat) (now : Nat) : Bool :=
  match st with
  | some s =>
    match s.last_check with
    | some last_check => decide (now - last_check ≥ check_interval_secs)
    | none => true
  | none => true

/-- SchedulerEngine::mark_checked (entry or_default, then set last_check). -/
def mark_checked (st : Option ScheduleState) (now : Nat) : Option ScheduleState :=
  let s := st.getD ScheduleState.default
  some { s with last_check := some now }

/-- SchedulerEngine::should_notify. The source takes the entry or_default;
inserting a default entry is observationally equal to leaving the map
unchanged, so the state is read but not returned. -/
def should_notify (st : Option ScheduleState) (grace_period_secs : Nat) (now : Nat) : Bool :=
  let s := st.getD ScheduleState.default
  if (match s.grace_started with
      | some grace_started => decide (now - grace_started < grace_period_secs)
      | none => false) then
    false
  else if (match s.last_notification with
      | some last_notification => decide (now - last_notification < 300)
      | none => false) then
    false
  else
    true

/-- SchedulerEngine::start_grace (entry or_default; set grace_started only
when unset). -/
def start_grace (st : Option ScheduleState) (now : Nat) : Option ScheduleState :=
  let s := st.getD ScheduleState.default
  if s.grace_started.isNone then
    some { s with grace_started := some now }
  else
    some s

/-- SchedulerEngine::reset_grace (get_mut: mutates only an existing entry). -/
def reset_grace (st : Option ScheduleState) : Option ScheduleState :=
  match st with
  | some s => some { s with grace_started := none, consecutive_non_compliant := 0 }
  | none => none

/-- SchedulerEngine::mark_notified. -/
def mark_notified (st : Option ScheduleState) (now : Nat) : Option ScheduleState :=
  let s := st.getD ScheduleState.default
  some { s with last_notification := some now,
                consecutive_non_compliant := s.consecutive_non_compliant + 1 }

/-- SchedulerEngine::evaluate, over the state entry of the evaluated
schedule, at monotonic time now and local wall-clock reading loc.
Returns ((should_notify, is_compliant), updated state entry). -/
def evaluate (schedule : Schedule) (current_app : String)
    (st : Option ScheduleState) (now : Nat) (loc : LocalNow) :
    (Bool × Bool) × Option ScheduleState :=
  if !schedule.enabled then
    ((false, true), st)
  else if !(is_within_schedule schedule loc) then
    ((false, true), st)
  else if !(should_check st schedule.check_interval_secs now) then
    ((false, true), st)
  else
    let st1 := mark_checked st now
    if is_compliant schedule current_app then
      ((false, true), reset_grace st1)
    else
      let st2 := start_grace st1 now
      let sn := should_notify st2 schedule.grace_period_secs now
      let st3 := if sn then mark_notified st2 now else st2
      ((sn, false), st3)

/-- models/mod.rs AppInfo. -/
structure AppInfo where
  process_name : String
  app_title : Option String
  bundle_id : Option String
deriving DecidableEq

/-- models/mod.rs Session. Wall-clock times are Int seconds since the
epoch; duration_seconds is i64, modelled as Int. -/
structure Session where
  id : Option Int
  app_id : String
  app_name : Option String
  start_time : Int
  end_time : Option Int
  duration_seconds : Option Int
  is_idle : Bool
deriving DecidableEq

/-- sessionizer/state.rs SessionizerConfig. -/
structure SessionizerConfig where
  idle_threshold_seconds : Nat
deriving DecidableEq

/-- sessionizer/state.rs SessionState. -/
inductive SessionState where
  | Inactive : SessionState
  | Active (app_id : String) (app_name : Option String) (start_time : Int) : SessionState
  | Idle (start_time : Int) : SessionState
deriving DecidableEq

/-- Sessionizer::update with the wall-clock reading now passed explicitly.
Returns (completed-session flag, next state, sessions pushed onto the
pending queue this call, in push order). The match arms mirror the source
in order; the source arm for (Active, app, not idle) splits here into the
same-app guard, the different-app case and the absent-app case. -/
def update (cfg : SessionizerConfig) (st : SessionState) (app : Option AppInfo)
    (idle_seconds : Nat) (now : Int) : Bool × SessionState × List Session :=
  let is_idle := decide (idle_seconds ≥ cfg.idle_threshold_seconds)
  match st, app, is_idle with
  | .Inactive, some info, false =>
    (false, .Active info.process_name info.app_title now, [])
  | .Inactive, _, true =>
    (false, .Idle now, [])
  | .Active app_id app_name start_time, some info, false =>
    if app_id = info.process_name then
      (false, .Active app_id app_name start_time, [])
    else
      (true, .Active info.process_name info.app_title now,
        [{ id := none, app_id := app_id, app_name := app_name,
           start_time := start_time, end_time := some now,
           duration_seconds := some (now - start_time), is_idle := false }])
  | .Active app_id app_name start_time, none, false =>
    (true, .Inactive,
      [{ id := none, app_id := app_id, app_name := app_name,
         start_time := start_time, end_time := some now,
         duration_seconds := some (now - start_time), is_idle := false }])
  | .Active app_id app_name start_time, _, true =>
    (true, .Idle now,
      [{ id := none, app_id := app_id, app_name := app_name,
         start_time := start_time, end_time := some now,
         duration_seconds := some (now - start_time), is_idle := false }])
  | .Idle start_time, some info, false =>
    (true, .Active info.process_name info.app_title now,
      [{ id := none, app_id := "Idle", app_name := some "Idle",
         start_time := start_time, end_time := some now,
         duration_seconds := some (now - start_time), is_idle := true }])
  | .Idle start_time, none, false =>
    (true, .Inactive,
      [{ id := none, app_id := "Idle", app_name := some "Idle",
         start_time := start_time, end_time := some now,
         duration_seconds := some (now - start_time), is_idle := true }])
  | .Idle _, _, true =>
    (false, st, [])
  | .Inactive, none, false =>
    (false, .Inactive, [])

/-- The Sessionizer with its pending queue (Sessionizer struct without the
config, which is passed separately). -/
structure SessionizerS where
  state : SessionState
  pending : List Session
deriving DecidableEq

/-- One Sessionizer::update call on the full struct: the emitted sessions
are pushed (appended) onto the pending queue. -/
def updateS (cfg : SessionizerConfig) (sz : SessionizerS) (app : Option AppInfo)
    (idle_seconds : Nat) (now : Int) : Bool × SessionizerS :=
  let r := update cfg sz.state app idle_seconds now
  (r.1, { state := r.2.1, pending := sz.pending ++ r.2.2 })

/-- The start time recorded in the current session state, when one is
open. -/
def stateStart : SessionState → Option Int
  | .Inactive => none
  | .Active _ _ start_time => some start_time
  | .Idle start_time => some start_time

/-- Rust str::split(sep) on a character list. An empty input yields one
empty field, as in Rust. -/
def splitOnChar (sep : Char) : List Char → List (List Char)
  | [] => [[]]
  | c :: cs =>
    match splitOnChar sep cs with
    | [] => [[]]
    | w :: ws => if c = sep then [] :: w :: ws else (c :: w) :: ws

/-- Rust slice::join(sep) on character lists. -/
def joinWith (sep : Char) : List (List Char) → List Char
  | [] => []
  | [w] => w
  | w :: ws => w ++ sep :: joinWith sep ws

/-- Rust str::parse::<u32>().ok() on a character list, for the inputs this
program produces and consumes: some value for a nonempty all-digit string,
none otherwise (the model ignores the leading sign and the u32 overflow
cases of Rust parsing, neither of which a 0-6 day number or an HH or MM
field can hit). -/
def toNatDigits (cs : List Char) : Option Nat :=
  if cs ≠ [] ∧ cs.all Char.isDigit then
    some (cs.foldl (fun n c => n * 10 + (c.toNat - 48)) 0)
  else
    none

/-- chrono format %H:%M of a NaiveTime (seconds-of-day): two zero-padded
digits of the hour, a colon, two zero-padded digits of the minute. -/
def formatHM (t : Nat) : List Char :=
  [Nat.digitChar (t / 3600 / 10), Nat.digitChar (t / 3600 % 10), ':',
   Nat.digitChar (t % 3600 / 60 / 10), Nat.digitChar (t % 3600 / 60 % 10)]

/-- The hour and minute fields of a %H:%M parse: an hour number below 24
and a minute number below 60, combined into seconds-of-day. -/
def parseHMFields (h m : List Char) : Option Nat :=
  match toNatDigits h, toNatDigits m with
  | some hh, some mm =>
    if hh < 24 ∧ mm < 60 then some (hh * 3600 + mm * 60) else none
  | _, _ => none

/-- chrono NaiveTime::parse_from_str with format %H:%M, as an Option on
seconds-of-day: an hour field below 24 and a minute field below 60
separated by a colon; seconds are zero. -/
def parseHM (cs : List Char) : Option Nat :=
  match splitOnChar ':' cs with
  | [h, m] => parseHMFields h m
  | _ => none

/-- The 0-6 to Weekday decoding match of Database::get_all_schedules. -/
def weekdayFromNum : Nat → Option Weekday
  | 0 => some .Mon
  | 1 => some .Tue
  | 2 => some .Wed
  | 3 => some .Thu
  | 4 => some .Fri
  | 5 => some .Sat
  | 6 => some .Sun
  | _ => none

/-- The row written to the schedules table (the param list of
Database::insert_schedule, without the SQL layer). -/
structure ScheduleRow where
  name : String
  start_time : List Char
  end_time : List Char
  days : List Char
  expected_apps : List Char
  check_interval_secs : Nat
  grace_period_secs : Nat
  enabled : Bool
deriving DecidableEq

/-- Database::insert_schedule: the encoding of a Schedule into its
persisted row. Each weekday encodes as the decimal string of
num_days_from_monday (a single digit); days and expected_apps are joined
with commas; times are formatted %H:%M. -/
def encodeScheduleRow (s : Schedule) : ScheduleRow :=
  { name := s.name
    start_time := formatHM s.start_time
    end_time := formatHM s.end_time
    days := joinWith ',' (s.days.map fun d => [Nat.digitChar d.num_days_from_monday])
    expected_apps := joinWith ',' (s.expected_apps.map String.data)
    check_interval_secs := s.check_interval_secs
    grace_period_secs := s.grace_period_secs
    enabled := s.enabled }

/-- The row-to-Schedule mapping of Database::get_all_schedules: parse the
times with the 09:00 and 17:00 fallbacks, split days on commas and keep
the entries that parse to a 0-6 weekday number, split expected_apps on
commas and keep the nonempty entries. -/
def decodeScheduleRow (id : Int) (r : ScheduleRow) : Schedule :=
  { id := some id
    name := r.name
    start_time := (parseHM r.start_time).getD (9 * 3600)
    end_time := (parseHM r.end_time).getD (17 * 3600)
    days := ((splitOnChar ',' r.days).filterMap toNatDigits).filterMap weekdayFromNum
    expected_apps := ((splitOnChar ',' r.expected_apps).filter
        (fun w => !w.isEmpty)).map String.mk
    check_interval_secs := r.check_interval_secs
    grace_period_secs := r.grace_period_secs
    enabled := r.enabled }

/-! Helper lemmas about the substring test. -/

theorem containsSub_nil (l : List Char) : containsSub [] l = true := by
  cases l with
  | nil => rfl
  | cons c cs => simp [containsSub, List.isPrefixOf]

theorem isPrefixOf_eq_iff : ∀ (n l : List Char), n.isPrefixOf l = true ↔ ∃ t, n ++ t = l
  | [], l => by simp [List.isPrefixOf]
  | a :: n, [] => by simp [List.isPrefixOf]
  | a :: n, b :: l => by
    simp only [List.isPrefixOf, Bool.and_eq_true, beq_iff_eq, isPrefixOf_eq_iff n l,
      List.cons_append, List.cons.injEq]
    constructor
    · rintro ⟨rfl, t, rfl⟩
      exact ⟨t, rfl, rfl⟩
    · rintro ⟨t, rfl, rfl⟩
      exact ⟨rfl, t, rfl⟩

theorem containsSub_iff (n : List Char) : ∀ (l : List Char),
    (containsSub n l = true ↔ ∃ pre post, l = pre ++ n ++ post)
  | [] => by
    constructor
    · intro he
      have hn : n = [] := by
        cases n with
        | nil => rfl
        | cons a as => simp [containsSub] at he
      exact ⟨[], [], by simp [hn]⟩
    · rintro ⟨pre, post, he⟩
      have hn : n = [] := by
        cases pre <;> cases n <;> simp_all
      simp [hn, containsSub_nil]
  | c :: rest => by
    rw [show containsSub n (c :: rest) =
          (n.isPrefixOf (c :: rest) || containsSub n rest) from rfl]
    simp only [Bool.or_eq_true, isPrefixOf_eq_iff, containsSub_iff n rest]
    constructor
    · rintro (⟨t, ht⟩ | ⟨pre, post, he⟩)
      · exact ⟨[], t, by simp [ht]⟩
      · exact ⟨c :: pre, post, by simp [he]⟩
    · rintro ⟨pre, post, he⟩
      cases pre with
      | nil =>
        left
        exact ⟨post, by simpa using he.symm⟩
      | cons p ps =>
        right
        simp only [List.cons_append, List.cons.injEq] at he
        exact ⟨ps, post, he.2⟩

/-! Concrete inputs used by the engine claims. -/

/-- An always-on schedule used by the grace and rate-limit sequence: every
local moment of a Monday is inside its window, its expected app is
"work", its check interval is 0 and its grace period is 60. -/
def sched_c1 : Schedule :=
  { id := some 1, name := "s", start_time := 0, end_time := 86340,
    days := [.Mon], expected_apps := ["work"], check_interval_secs := 0,
    grace_period_secs := 60, enabled := true }

/-- A fixed local wall-clock reading: Monday noon. -/
def loc_c1 : LocalNow := { weekday := .Mon, time := 43200 }

/-- A schedule whose only expected app is "Chrome". -/
def sched_chrome : Schedule :=
  { id := some 2, name := "c", start_time := 0, end_time := 86340,
    days := [.Mon], expected_apps := ["Chrome"], check_interval_secs := 300,
    grace_period_secs := 60, enabled := true }

/-- The overnight schedule of the window claim: 22:00 to 06:00 on Monday. -/
def sched_night : Schedule :=
  { id := some 3, name := "n", start_time := 22 * 3600, end_time := 6 * 3600,
    days := [.Mon], expected_apps := [], check_interval_secs := 300,
    grace_period_secs := 60, enabled := true }

/-- A disabled schedule. -/
def sched_off : Schedule :=
  { id := some 4, name := "d", start_time := 0, end_time := 86340,
    days := [.Mon], expected_apps := [], check_interval_secs := 300,
    grace_period_secs := 60, enabled := false }

/-- The results of a sequence of evaluate calls at the given monotonic
times, threading the runtime state from call to call, starting from no
state entry. -/
def evalResults (schedule : Schedule) (current_app : String) (loc : LocalNow)
    (times : List Nat) : List (Bool × Bool) :=
  (times.foldl
    (fun (acc : List (Bool × Bool) × Option ScheduleState) t =>
      let r := evaluate schedule current_app acc.2 t loc
      (acc.1 ++ [r.1], r.2))
    ([], none)).1

/-- C4: the compliance test is: if expectedApps is empty, every current app
name is compliant; otherwise the current app name is compliant iff its
lowercasing contains the lowercasing of at least one entry of expectedApps
as a substring; in particular expectedApps=["Chrome"] with
currentAppName="Google Chrome" is compliant. -/
theorem is_compliant_substring_spec :
    (∀ (schedule : Schedule) (current_app : String),
      is_compliant schedule current_app = true ↔
        (schedule.expected_apps = [] ∨
          ∃ a ∈ schedule.expected_apps,
            ∃ pre post, toLowerS current_app = pre ++ toLowerS a ++ post)) ∧
    is_compliant sched_chrome "Google Chrome" = true := by
  refine ⟨?_, by decide⟩
  intro schedule current_app
  unfold is_compliant
  by_cases he : schedule.expected_apps = []
  · simp [he]
  · have hne : schedule.expected_apps.isEmpty = false := by
      simpa [List.isEmpty_iff] using he
    simp [hne, he, List.any_eq_true, containsSub_iff]

/-- C5: is_within_schedule returns true iff the current weekday is in
schedule.days and, when startTime is at most endTime, the time of day lies
in the inclusive interval, else (overnight wrap) the time of day is at
least startTime or at most endTime; with startTime=22:00 and endTime=06:00
on a listed day it holds at 23:00 and at 02:00 and fails at 12:00. -/
theorem is_within_schedule_spec :
    (∀ (schedule : Schedule) (now : LocalNow),
      is_within_schedule schedule now = true ↔
        (now.weekday ∈ schedule.days ∧
          (if schedule.start_time ≤ schedule.end_time then
            schedule.start_time ≤ now.time ∧ now.time ≤ schedule.end_time
          else
            schedule.start_time ≤ now.time ∨ now.time ≤ schedule.end_time))) ∧
    is_within_schedule sched_night { weekday := .Mon, time := 23 * 3600 } = true ∧
    is_within_schedule sched_night { weekday := .Mon, time := 2 * 3600 } = true ∧
    is_within_schedule sched_night { weekday := .Mon, time := 12 * 3600 } = false := by
  refine ⟨?_, by decide, by decide, by decide⟩
  intro schedule now
  unfold is_within_schedule
  by_cases hd : now.weekday ∈ schedule.days
  · have hc : schedule.days.contains now.weekday = true := by
      simpa [List.contains] using hd
    by_cases ht : schedule.start_time ≤ schedule.end_time <;>
      simp [hc, hd, ht]
  · have hc : schedule.days.contains now.weekday = false := by
      simpa [List.contains] using hd
    simp [hc, hd]

/-- C9: if any entry of expectedApps is the empty string then is_compliant
returns true for every current app name, even though expectedApps is
non-empty. -/
theorem is_compliant_empty_entry (schedule : Schedule) (current_app : String)
    (h : "" ∈ schedule.expected_apps) :
    is_compliant schedule current_app = true ∧ schedule.expected_apps ≠ [] := by
  have hne : schedule.expected_apps ≠ [] := by
    intro he
    rw [he] at h
    cases h
  refine ⟨?_, hne⟩
  unfold is_compliant
  have hemp : schedule.expected_apps.isEmpty = false := by
    simpa [List.isEmpty_iff] using hne
  simp only [hemp, Bool.false_eq_true, if_false, List.any_eq_true]
  exact ⟨"", h, containsSub_nil _⟩

/-- C9 witness: the schedule with expectedApps=[""] is compliant for the
app name "anything". -/
theorem is_compliant_empty_entry_witness :
    is_compliant { sched_c1 with expected_apps := [""] } "anything" = true ∧
    ({ sched_c1 with expected_apps := [""] } : Schedule).expected_apps ≠ [] :=
  is_compliant_empty_entry { sched_c1 with expected_apps := [""] } "anything"
    (by decide)

/-- C3: when the schedule is disabled, or the local time is outside the
active window, or a lastCheck entry exists with elapsed monotonic time
below checkIntervalSeconds, evaluate returns (false, true) and leaves the
schedule runtime state unchanged. -/
theorem evaluate_short_circuit_frame (schedule : Schedule) (current_app : String)
    (st : Option ScheduleState) (now : Nat) (loc : LocalNow)
    (h : schedule.enabled = false ∨ is_within_schedule schedule loc = false ∨
      ∃ s last_check, st = some s ∧ s.last_check = some last_check ∧
        now - last_check < schedule.check_interval_secs) :
    evaluate schedule current_app st now loc = ((false, true), st) := by
  rcases h with h | h | ⟨s, last_check, hst, hlc, hint⟩
  · simp [evaluate, h]
  · by_cases he : schedule.enabled <;> simp [evaluate, he, h]
  · have hsc : should_check st schedule.check_interval_secs now = false := by
      subst hst
      simp [should_check, hlc, Nat.not_le.2 hint]
    by_cases he : schedule.enabled
    · by_cases hw : is_within_schedule schedule loc <;>
        simp [evaluate, he, hw, hsc]
    · simp [evaluate, he]

/-- C3 witness: a disabled schedule evaluates to (false, true) with the
absent state entry preserved. -/
theorem evaluate_short_circuit_frame_witness :
    evaluate sched_off "anything" none 0 loc_c1 = ((false, true), none) :=
  evaluate_short_circuit_frame sched_off "anything" none 0 loc_c1
    (Or.inl (by decide))

/-- C1 counterexample: with gracePeriodSeconds=60, checkIntervalSeconds=0
and a non-compliant app at every call, the evaluate results at monotonic
seconds 0, 61, 62, 301 are (false,false), (true,false), (false,false) and
(false,false): the fourth call is still rate limited, because the
notification fired at second 61 and only 240 of the 300 rate-limit seconds
have elapsed at second 301, so the claimed fourth result (true,false) is
wrong. -/
theorem evaluate_sequence_cex :
    evalResults sched_c1 "play" loc_c1 [0, 61, 62, 301] =
      [(false, false), (true, false), (false, false), (false, false)] ∧
    evalResults sched_c1 "play" loc_c1 [0, 61, 62, 301] ≠
      [(false, false), (true, false), (false, false), (true, false)] := by
  constructor
  · decide
  · decide

/-- C1 amended: same scenario; the results at monotonic seconds 0, 61, 62,
301, 361 are (false,false) as grace starts, (true,false) once the grace
period has elapsed, (false,false) under the notification rate limit,
(false,false) still under the rate limit at second 301 (only 240 seconds
after the notification), and (true,false) at second 361 once the 300
second rate limit has expired. -/
theorem evaluate_sequence_amended :
    evalResults sched_c1 "play" loc_c1 [0, 61, 62, 301, 361] =
      [(false, false), (true, false), (false, false), (false, false),
        (true, false)] := by
  decide

/-! Sessionizer claims. -/

/-- The default sessionizer configuration (idle threshold 300 seconds). -/
def cfg300 : SessionizerConfig := { idle_threshold_seconds := 300 }

/-- A sample application named "b". -/
def appB : AppInfo := { process_name := "b", app_title := none, bundle_id := none }

/-- C6: from state Active(A), one update call with a non-idle sample whose
app B differs from A closes exactly one Session with appId=A and
isIdle=false, returns true, and leaves the state Active(B). -/
theorem update_switch_closes_one (cfg : SessionizerConfig) (a : String)
    (an : Option String) (t : Int) (info : AppInfo) (idle_seconds : Nat) (now : Int)
    (hidle : idle_seconds < cfg.idle_threshold_seconds)
    (hdiff : a ≠ info.process_name) :
    update cfg (.Active a an t) (some info) idle_seconds now =
      (true, .Active info.process_name info.app_title now,
        [{ id := none, app_id := a, app_name := an, start_time := t,
           end_time := some now, duration_seconds := some (now - t),
           is_idle := false }]) := by
  have hni : decide (idle_seconds ≥ cfg.idle_threshold_seconds) = false := by
    simp [Nat.not_le.2 hidle]
  simp [update, hni, hdiff]

/-- C6 witness: switching from "a" to "b" with a non-idle sample closes the
"a" session and activates "b". -/
theorem update_switch_closes_one_witness :
    update cfg300 (.Active "a" none 100) (some appB) 0 200 =
      (true, .Active "b" none 200,
        [{ id := none, app_id := "a", app_name := none, start_time := 100,
           end_time := some 200, duration_seconds := some 100,
           is_idle := false }]) :=
  update_switch_closes_one cfg300 "a" none 100 appB 0 200 (by decide) (by decide)

/-- C7: closing an Idle state (any sample below the idle threshold, with or
without an app) emits exactly the fixed sentinel Session with appId="Idle"
and isIdle=true; and the transition of any Active state into Idle on an
idle sample yields the state Idle(now), which records nothing of the
previously active app, so the idle Session never carries the prior app
identity. -/
theorem idle_close_app_agnostic :
    (∀ (cfg : SessionizerConfig) (t : Int) (app : Option AppInfo)
        (idle_seconds : Nat) (now : Int),
      idle_seconds < cfg.idle_threshold_seconds →
      (update cfg (.Idle t) app idle_seconds now).2.2 =
        [{ id := none, app_id := "Idle", app_name := some "Idle",
           start_time := t, end_time := some now,
           duration_seconds := some (now - t), is_idle := true }]) ∧
    (∀ (cfg : SessionizerConfig) (a : String) (an : Option String) (t : Int)
        (app : Option AppInfo) (idle_seconds : Nat) (now : Int),
      cfg.idle_threshold_seconds ≤ idle_seconds →
      (update cfg (.Active a an t) app idle_seconds now).2.1 = .Idle now) := by
  constructor
  · intro cfg t app idle_seconds now hidle
    have hni : decide (idle_seconds ≥ cfg.idle_threshold_seconds) = false := by
      simp [Nat.not_le.2 hidle]
    cases app <;> simp [update, hni]
  · intro cfg a an t app idle_seconds now hidle
    have hyi : decide (idle_seconds ≥ cfg.idle_threshold_seconds) = true := by
      simpa using hidle
    cases app <;> simp [update, hyi]

/-- C7 witness: waking from Idle at second 700 into app "b" emits the
sentinel idle Session, and an idle sample at second 400 moved an Active
"a" state into Idle(400). -/
theorem idle_close_app_agnostic_witness :
    (update cfg300 (.Idle 400) (some appB) 0 700).2.2 =
      [{ id := none, app_id := "Idle", app_name := some "Idle",
         start_time := 400, end_time := some 700,
         duration_seconds := some 300, is_idle := true }] ∧
    (update cfg300 (.Active "a" none 100) (some appB) 300 400).2.1 = .Idle 400 :=
  ⟨idle_close_app_agnostic.1 cfg300 400 (some appB) 0 700 (by decide),
   idle_close_app_agnostic.2 cfg300 "a" none 100 (some appB) 300 400 (by decide)⟩

/-- C10: one update call appends at most one Session to the pending queue,
and it returns true iff it appended exactly one. -/
theorem update_pushes_at_most_one (cfg : SessionizerConfig) (sz : SessionizerS)
    (app : Option AppInfo) (idle_seconds : Nat) (now : Int) :
    (updateS cfg sz app idle_seconds now).2.pending.length ≤ sz.pending.length + 1 ∧
    ((updateS cfg sz app idle_seconds now).1 = true ↔
      (updateS cfg sz app idle_seconds now).2.pending.length =
        sz.pending.length + 1) := by
  have hlen : ∀ (st : SessionState),
      (update cfg st app idle_seconds now).2.2.length =
        (if (update cfg st app idle_seconds now).1 = true then 1 else 0) := by
    intro st
    unfold update
    cases hidle : decide (cfg.idle_threshold_seconds ≤ idle_seconds) <;>
      rcases st with _ | ⟨a, an, t⟩ | t <;> rcases app with _ | info <;>
      simp only [hidle] <;>
      first
        | rfl
        | (by_cases hsame : a = info.process_name <;> simp [hsame])
  constructor
  · simp only [updateS, List.length_append, hlen sz.state]
    split <;> omega
  · simp only [updateS, List.length_append, hlen sz.state]
    constructor
    · intro h
      simp [h]
    · intro h
      by_cases hr : (update cfg sz.state app idle_seconds now).1 = true
      · exact hr
      · simp [hr] at h

/-- C2 counterexample: if the wall clock steps backwards past the open
start time (state Active started at second 100, closing call at second
50), the emitted Session has endTime = 50 before startTime = 100 and
durationSeconds = -50, so endTime >= startTime and durationSeconds >= 0
fail as stated. -/
theorem update_close_cex :
    (update cfg300 (.Active "a" none 100) (some appB) 0 50).2.2 =
      [{ id := none, app_id := "a", app_name := none, start_time := 100,
         end_time := some 50, duration_seconds := some (-50),
         is_idle := false }] ∧
    ¬ ((100 : Int) ≤ 50) ∧ ¬ ((0 : Int) ≤ -50) := by
  refine ⟨by decide, by decide, by decide⟩

/-- Every session emitted by an update call carries the recorded start of
the state it closed, endTime stamped to the call time and durationSeconds
computed as the difference. -/
theorem update_emitted_shape (cfg : SessionizerConfig) (st : SessionState)
    (app : Option AppInfo) (idle_seconds : Nat) (now : Int) :
    ∀ s ∈ (update cfg st app idle_seconds now).2.2,
      s.end_time = some now ∧
      s.duration_seconds = some (now - s.start_time) ∧
      stateStart st = some s.start_time := by
  unfold update
  cases hidle : decide (cfg.idle_threshold_seconds ≤ idle_seconds) <;>
    rcases st with _ | ⟨a, an, t⟩ | t <;> rcases app with _ | info <;>
    simp only [hidle] <;>
    first
      | (simp [stateStart]; done)
      | (by_cases hsame : a = info.process_name <;> simp [hsame, stateStart])

/-- C2 amended: every update call appends exactly the closed sessions to
the pending queue and returns true iff it closed one; every closed Session
has endTime stamped to the time of the call and durationSeconds =
endTime - startTime in whole seconds; and endTime >= startTime with
durationSeconds >= 0 hold provided the call time is not earlier than the
recorded start of the open state (the wall clock did not step backwards
across the session). -/
theorem update_close_stamps (cfg : SessionizerConfig) (sz : SessionizerS)
    (app : Option AppInfo) (idle_seconds : Nat) (now : Int)
    (hmono : ∀ t, stateStart sz.state = some t → t ≤ now) :
    (updateS cfg sz app idle_seconds now).2.pending =
      sz.pending ++ (update cfg sz.state app idle_seconds now).2.2 ∧
    ((updateS cfg sz app idle_seconds now).1 = true ↔
      (update cfg sz.state app idle_seconds now).2.2 ≠ []) ∧
    ∀ s ∈ (update cfg sz.state app idle_seconds now).2.2,
      s.end_time = some now ∧
      s.duration_seconds = some (now - s.start_time) ∧
      s.start_time ≤ now ∧ 0 ≤ now - s.start_time := by
  refine ⟨rfl, ?_, ?_⟩
  · show (update cfg sz.state app idle_seconds now).1 = true ↔ _
    rcases sz with ⟨st, pending⟩
    unfold update
    cases hidle : decide (cfg.idle_threshold_seconds ≤ idle_seconds) <;>
      rcases st with _ | ⟨a, an, t⟩ | t <;> rcases app with _ | info <;>
      simp only [hidle] <;>
      first
        | (simp; done)
        | (by_cases hsame : a = info.process_name <;> simp [hsame])
  · intro s hs
    obtain ⟨he, hd, hst⟩ :=
      update_emitted_shape cfg sz.state app idle_seconds now s hs
    have ht : s.start_time ≤ now := hmono s.start_time hst
    exact ⟨he, hd, ht, by omega⟩

/-- The session closed in the C2 witness scenario. -/
def sessA : Session :=
  { id := none, app_id := "a", app_name := none, start_time := 100,
    end_time := some 200, duration_seconds := some 100, is_idle := false }

/-- C2 witness: closing the session of app "a" opened at second 100 by a
switch to "b" at second 200 appends one stamped session and returns
true. -/
theorem update_close_stamps_witness :
    (updateS cfg300 { state := .Active "a" none 100, pending := [] }
        (some appB) 0 200).2.pending =
      [] ++ (update cfg300 (.Active "a" none 100) (some appB) 0 200).2.2 ∧
    (updateS cfg300 { state := .Active "a" none 100, pending := [] }
        (some appB) 0 200).1 = true ∧
    sessA.end_time = some 200 ∧
    sessA.duration_seconds = some (200 - sessA.start_time) ∧
    sessA.start_time ≤ 200 ∧ (0 : Int) ≤ 200 - sessA.start_time := by
  have h := update_close_stamps cfg300
      { state := .Active "a" none 100, pending := [] } (some appB) 0 200
      (fun u hu => by
        simp only [stateStart, Option.some.injEq] at hu
        omega)
  obtain ⟨h1, h2, h3⟩ := h
  have hm : sessA ∈ (update cfg300 (.Active "a" none 100) (some appB) 0 200).2.2 := by
    decide
  obtain ⟨he, hd, hst, hnn⟩ := h3 sessA hm
  exact ⟨h1, h2.mpr (by decide), he, hd, hst, hnn⟩

/-! Split and join lemmas for the storage encoding. -/

theorem splitOnChar_ne_nil (sep : Char) (l : List Char) :
    splitOnChar sep l ≠ [] := by
  cases l with
  | nil => simp [splitOnChar]
  | cons c cs =>
    unfold splitOnChar
    cases splitOnChar sep cs with
    | nil => simp
    | cons w ws => by_cases h : c = sep <;> simp [h]

theorem splitOnChar_no_sep (sep : Char) :
    ∀ (w : List Char), sep ∉ w → splitOnChar sep w = [w]
  | [], _ => rfl
  | c :: cs, h => by
    have hc : c ≠ sep := fun he => h (he ▸ List.mem_cons_self c cs)
    have ih : splitOnChar sep cs = [cs] :=
      splitOnChar_no_sep sep cs (fun hm => h (List.mem_cons_of_mem c hm))
    simp [splitOnChar, ih, hc]

theorem splitOnChar_append (sep : Char) :
    ∀ (w rest : List Char), sep ∉ w →
      splitOnChar sep (w ++ sep :: rest) = w :: splitOnChar sep rest
  | [], rest, _ => by
    have h : splitOnChar sep (sep :: rest) =
        (match splitOnChar sep rest with
          | [] => [[]]
          | w :: ws => if sep = sep then [] :: w :: ws else (sep :: w) :: ws) := rfl
    rw [List.nil_append, h]
    cases hr : splitOnChar sep rest with
    | nil => exact absurd hr (splitOnChar_ne_nil sep rest)
    | cons u us => simp
  | c :: cs, rest, h => by
    have hc : c ≠ sep := fun he => h (he ▸ List.mem_cons_self c cs)
    have ih : splitOnChar sep (cs ++ sep :: rest) = cs :: splitOnChar sep rest :=
      splitOnChar_append sep cs rest (fun hm => h (List.mem_cons_of_mem c hm))
    simp [splitOnChar, ih, hc]

theorem splitOnChar_joinWith (sep : Char) :
    ∀ (w : List Char) (ws : List (List Char)), sep ∉ w →
      (∀ u ∈ ws, sep ∉ u) →
      splitOnChar sep (joinWith sep (w :: ws)) = w :: ws
  | w, [], hw, _ => by
    simpa [joinWith] using splitOnChar_no_sep sep w hw
  | w, u :: us, hw, hws => by
    have ih : splitOnChar sep (joinWith sep (u :: us)) = u :: us :=
      splitOnChar_joinWith sep u us (hws u (List.mem_cons_self u us))
        (fun v hv => hws v (List.mem_cons_of_mem u hv))
    calc splitOnChar sep (joinWith sep (w :: u :: us))
        = splitOnChar sep (w ++ sep :: joinWith sep (u :: us)) := rfl
      _ = w :: splitOnChar sep (joinWith sep (u :: us)) :=
          splitOnChar_append sep w (joinWith sep (u :: us)) hw
      _ = w :: u :: us := by rw [ih]

/-! Digit and time lemmas for the storage encoding. -/

theorem digitChar_not_sep : ∀ n < 10, Nat.digitChar n ≠ ',' ∧ Nat.digitChar n ≠ ':' := by
  decide

theorem toNatDigits_one (a : Nat) (h : a < 10) :
    toNatDigits [Nat.digitChar a] = some a := by
  revert h
  revert a
  decide

theorem toNatDigits_two (a b : Nat) (ha : a < 10) (hb : b < 10) :
    toNatDigits [Nat.digitChar a, Nat.digitChar b] = some (10 * a + b) := by
  have h : ∀ a < 10, ∀ b < 10,
      toNatDigits [Nat.digitChar a, Nat.digitChar b] = some (10 * a + b) := by
    decide
  exact h a ha b hb

theorem parseHM_formatHM (t : Nat) (h1 : t < 86400) (h2 : t % 60 = 0) :
    parseHM (formatHM t) = some t := by
  have hh : t / 3600 < 24 := by omega
  have hm : t % 3600 / 60 < 60 := by omega
  have hsplit : splitOnChar ':' (formatHM t) =
      [[Nat.digitChar (t / 3600 / 10), Nat.digitChar (t / 3600 % 10)],
       [Nat.digitChar (t % 3600 / 60 / 10), Nat.digitChar (t % 3600 / 60 % 10)]] := by
    have hw : (':' : Char) ∉
        [Nat.digitChar (t / 3600 / 10), Nat.digitChar (t / 3600 % 10)] := by
      intro hmem
      simp only [List.mem_cons, List.not_mem_nil, or_false] at hmem
      rcases hmem with h | h
      · exact (digitChar_not_sep (t / 3600 / 10) (by omega)).2 h.symm
      · exact (digitChar_not_sep (t / 3600 % 10) (by omega)).2 h.symm
    have hrest : (':' : Char) ∉
        [Nat.digitChar (t % 3600 / 60 / 10), Nat.digitChar (t % 3600 / 60 % 10)] := by
      intro hmem
      simp only [List.mem_cons, List.not_mem_nil, or_false] at hmem
      rcases hmem with h | h
      · exact (digitChar_not_sep (t % 3600 / 60 / 10) (by omega)).2 h.symm
      · exact (digitChar_not_sep (t % 3600 / 60 % 10) (by omega)).2 h.symm
    calc splitOnChar ':' (formatHM t)
        = splitOnChar ':'
            ([Nat.digitChar (t / 3600 / 10), Nat.digitChar (t / 3600 % 10)] ++
              ':' :: [Nat.digitChar (t % 3600 / 60 / 10),
                Nat.digitChar (t % 3600 / 60 % 10)]) := rfl
      _ = _ := by
          rw [splitOnChar_append ':' _ _ hw,
            splitOnChar_no_sep ':' _ hrest]
  unfold parseHM
  rw [hsplit]
  show parseHMFields
      [Nat.digitChar (t / 3600 / 10), Nat.digitChar (t / 3600 % 10)]
      [Nat.digitChar (t % 3600 / 60 / 10), Nat.digitChar (t % 3600 / 60 % 10)] =
    some t
  unfold parseHMFields
  rw [toNatDigits_two (t / 3600 / 10) (t / 3600 % 10) (by omega) (by omega)]
  rw [toNatDigits_two (t % 3600 / 60 / 10) (t % 3600 / 60 % 10) (by omega) (by omega)]
  have e1 : 10 * (t / 3600 / 10) + t / 3600 % 10 = t / 3600 := by omega
  have e2 : 10 * (t % 3600 / 60 / 10) + t % 3600 / 60 % 10 = t % 3600 / 60 := by omega
  rw [e1, e2]
  have e3 : t / 3600 * 3600 + t % 3600 / 60 * 60 = t := by omega
  simp [hh, hm, e3]

theorem weekday_digit_roundtrip (w : Weekday) :
    toNatDigits [Nat.digitChar w.num_days_from_monday] =
      some w.num_days_from_monday ∧
    weekdayFromNum w.num_days_from_monday = some w ∧
    (',' : Char) ∉ [Nat.digitChar w.num_days_from_monday] := by
  cases w <;> exact ⟨by decide, by decide, by decide⟩

theorem days_filterMap_roundtrip (ds : List Weekday) :
    (((ds.map fun d => [Nat.digitChar d.num_days_from_monday]).filterMap
        toNatDigits).filterMap weekdayFromNum) = ds := by
  induction ds with
  | nil => rfl
  | cons d rest ih =>
    obtain ⟨h1, h2, _⟩ := weekday_digit_roundtrip d
    simp only [List.map_cons, List.filterMap_cons, h1, h2, ih]

theorem days_roundtrip (ds : List Weekday) :
    ((splitOnChar ','
        (joinWith ',' (ds.map fun d => [Nat.digitChar d.num_days_from_monday]))).filterMap
        toNatDigits).filterMap weekdayFromNum = ds := by
  cases ds with
  | nil => rfl
  | cons d rest =>
    rw [show (d :: rest).map (fun d => [Nat.digitChar d.num_days_from_monday]) =
        [Nat.digitChar d.num_days_from_monday] ::
          rest.map (fun d => [Nat.digitChar d.num_days_from_monday]) from rfl,
      splitOnChar_joinWith ',' _ _ (weekday_digit_roundtrip d).2.2
        (by
          intro u hu
          simp only [List.mem_map] at hu
          obtain ⟨w, _, rfl⟩ := hu
          exact (weekday_digit_roundtrip w).2.2)]
    exact days_filterMap_roundtrip (d :: rest)

theorem string_mk_data (s : String) : String.mk s.data = s := rfl

theorem apps_roundtrip (apps : List String)
    (h : ∀ a ∈ apps, a.data ≠ [] ∧ (',' : Char) ∉ a.data) :
    ((splitOnChar ',' (joinWith ',' (apps.map String.data))).filter
        (fun w => !w.isEmpty)).map String.mk = apps := by
  cases apps with
  | nil => rfl
  | cons a rest =>
    rw [show (a :: rest).map String.data = a.data :: rest.map String.data from rfl,
      splitOnChar_joinWith ',' _ _
        (h a (List.mem_cons_self a rest)).2
        (by
          intro u hu
          simp only [List.mem_map] at hu
          obtain ⟨b, hb, rfl⟩ := hu
          exact (h b (List.mem_cons_of_mem a hb)).2)]
    have hk : ∀ (l : List String), (∀ b ∈ l, b.data ≠ []) →
        ((l.map String.data).filter (fun w => !w.isEmpty)).map String.mk = l := by
      intro l
      induction l with
      | nil => intro _; rfl
      | cons b bs ih =>
        intro hl
        have hb : b.data.isEmpty = false := by
          simpa [List.isEmpty_iff] using hl b (List.mem_cons_self b bs)
        simp only [List.map_cons, List.filter_cons, hb, Bool.not_false,
          if_true, List.map_cons, string_mk_data,
          ih (fun c hc => hl c (List.mem_cons_of_mem b hc))]
    exact hk (a :: rest) (fun b hb => (h b hb).1)

/-- The schedule of the C8 counterexample: its expectedApps list is the
singleton empty string, which the decoder drops. -/
def sched_rt_bad : Schedule :=
  { id := none, name := "rt", start_time := 32400, end_time := 61200,
    days := [.Mon, .Wed, .Fri], expected_apps := [""],
    check_interval_secs := 300, grace_period_secs := 60, enabled := true }

/-- C8 counterexample: the schedule with expectedApps=[""] (an entry with
no comma) decodes from its persisted row with expectedApps=[], not the
identical list, because the decoder filters out empty entries; so the
round trip fails as claimed. -/
theorem schedule_roundtrip_cex :
    (decodeScheduleRow 1 (encodeScheduleRow sched_rt_bad)).expected_apps = [] ∧
    sched_rt_bad.expected_apps = [""] ∧
    (decodeScheduleRow 1 (encodeScheduleRow sched_rt_bad)).expected_apps ≠
      sched_rt_bad.expected_apps ∧
    (',' : Char) ∉ ("" : String).data := by
  refine ⟨by decide, rfl, by decide, by decide⟩

/-- C8 amended: encoding a Schedule through the persisted representation
and decoding it back yields the identical days list (hence the identical
set), identical times and identical expectedApps, provided each
expected-app entry is nonempty and contains no comma and both times are
whole minutes (the %H:%M encoding drops seconds and the decoder drops
empty app entries). -/
theorem schedule_roundtrip (s : Schedule) (id : Int)
    (happs : ∀ a ∈ s.expected_apps, a.data ≠ [] ∧ (',' : Char) ∉ a.data)
    (hs1 : s.start_time < 86400) (hs2 : s.start_time % 60 = 0)
    (he1 : s.end_time < 86400) (he2 : s.end_time % 60 = 0) :
    (decodeScheduleRow id (encodeScheduleRow s)).days = s.days ∧
    (decodeScheduleRow id (encodeScheduleRow s)).start_time = s.start_time ∧
    (decodeScheduleRow id (encodeScheduleRow s)).end_time = s.end_time ∧
    (decodeScheduleRow id (encodeScheduleRow s)).expected_apps =
      s.expected_apps := by
  refine ⟨?_, ?_, ?_, ?_⟩
  · exact days_roundtrip s.days
  · show (parseHM (formatHM s.start_time)).getD (9 * 3600) = s.start_time
    rw [parseHM_formatHM s.start_time hs1 hs2]
    rfl
  · show (parseHM (formatHM s.end_time)).getD (17 * 3600) = s.end_time
    rw [parseHM_formatHM s.end_time he1 he2]
    rfl
  · exact apps_roundtrip s.expected_apps happs

/-- The schedule of the C8 witness: days {Mon, Wed, Fri}, whole-minute
times, one nonempty comma-free expected app. -/
def sched_rt : Schedule :=
  { id := none, name := "rt", start_time := 32400, end_time := 61200,
    days := [.Mon, .Wed, .Fri], expected_apps := ["Chrome"],
    check_interval_secs := 300, grace_period_secs := 60, enabled := true }

/-- C8 witness: the schedule with days {Mon, Wed, Fri} round-trips through
the persisted representation with identical days, times and expected
apps. -/
theorem schedule_roundtrip_witness :
    (decodeScheduleRow 1 (encodeScheduleRow sched_rt)).days = sched_rt.days ∧
    (decodeScheduleRow 1 (encodeScheduleRow sched_rt)).start_time =
      sched_rt.start_time ∧
    (decodeScheduleRow 1 (encodeScheduleRow sched_rt)).end_time =
      sched_rt.end_time ∧
    (decodeScheduleRow 1 (encodeScheduleRow sched_rt)).expected_apps =
      sched_rt.expected_apps :=
  schedule_roundtrip sched_rt 1 (by decide) (by decide) (by decide)
    (by decide) (by decide)

end TimeWarden
